import Mathlib

/-!
Verification development for the Micronote microservice repository
(note/todo CRUD with a Redis-backed response cache and a JWT auth service).

The definitions below are shallow embeddings of the JavaScript source:
the Redis client is modelled as an association list of (key, value, TTL)
entries, each Express route handler as a pure function from the relevant
state (Redis keyspace, database table rows, request fields) to the new
state and the HTTP response, and a Redis outage as an explicit health flag
whose `down` case mirrors the rejected promise being caught by the
surrounding `try`/`catch`.
-/

/-- Entry of the Redis keyspace: key, stored string value, and the TTL in
seconds that was passed to `setEx`. -/
structure RedisEntry where
  key : String
  value : String
  ttl : Nat
deriving DecidableEq

/-- Redis keyspace, newest entry first. -/
abbrev Redis := List RedisEntry

namespace Redis

/-- Model of `redisClient.get(key)`: the stored value under `key`, if present. -/
def get (r : Redis) (k : String) : Option String :=
  (List.find? (fun e => e.key == k) r).map RedisEntry.value

/-- Model of `redisClient.setEx(key, ttl, value)`: store `value` under `key`
with expiration `ttl`, replacing any previous entry for that key. -/
def setEx (r : Redis) (k : String) (ttl : Nat) (v : String) : Redis :=
  ⟨k, v, ttl⟩ :: List.filter (fun e => !(e.key == k)) r

/-- Remaining TTL recorded for `key` (the value `redisClient.ttl(key)` reports
right after the entry is stored). -/
def ttlOf (r : Redis) (k : String) : Option Nat :=
  (List.find? (fun e => e.key == k) r).map RedisEntry.ttl

/-- Char-level test that `s` starts with `p`; used to interpret the glob
patterns `cache:notes:{userId}:*` passed to `redisClient.keys`. -/
def charsStartWith : List Char → List Char → Bool
  | [], _ => true
  | _ :: _, [] => false
  | c :: p, d :: s => c == d && charsStartWith p s

/-- Test that the string `s` starts with `p` (semantics of the pattern `p*`). -/
def startsWith (p s : String) : Bool :=
  charsStartWith p.data s.data

/-- Model of `redisClient.keys(p + "*")`: every stored key starting with `p`. -/
def keysWithStart (r : Redis) (p : String) : List String :=
  List.map RedisEntry.key (List.filter (fun e => startsWith p e.key) r)

/-- Model of `redisClient.del(ks)`: drop every entry whose key is listed in `ks`. -/
def del (r : Redis) (ks : List String) : Redis :=
  List.filter (fun e => !(List.elem e.key ks)) r

end Redis

/-- Health of the Redis backend seen by one request: `up r` means every client
call succeeds against keyspace `r`; `down` means every awaited client call
rejects (connection refused), which the route code observes as a thrown
exception at the first `await`. -/
inductive RedisHealth
  | up (r : Redis)
  | down
deriving DecidableEq

/-- Keyspace carried by an `up` health value (and the empty keyspace for
`down`, where no key is observable). -/
def RedisHealth.redis : RedisHealth → Redis
  | .up r => r
  | .down => []

/-- HTTP response as observed by the client: status code and JSON-serialized
body. -/
structure HttpResponse where
  status : Nat
  body : String
deriving DecidableEq

/-- Cache key built by the notes-service cache middleware (part_020 line 109):
the string `cache:notes:${req.user.id}:${req.originalUrl}`. -/
def noteCacheKey (userId oUrl : String) : String :=
  "cache:notes:" ++ userId ++ ":" ++ oUrl

/-- Pattern root of the notes-service invalidation glob
`cache:notes:${userId}:*` (part_020 line 135). -/
def noteCacheRoot (userId : String) : String :=
  "cache:notes:" ++ userId ++ ":"

/-- Model of the notes-service `clearUserCache(userId)` (part_020 lines
134-139): enumerate all keys matching `cache:notes:${userId}:*` and delete
them (the `keys.length > 0` guard only skips an empty `del`, which is a
no-op here). -/
def clearUserCache (r : Redis) (userId : String) : Redis :=
  Redis.del r (Redis.keysWithStart r (noteCacheRoot userId))

/-- Pattern root of the todos-service invalidation glob
`cache:todos:${userId}:*` (part_021 line 111). -/
def todoCacheRoot (userId : String) : String :=
  "cache:todos:" ++ userId ++ ":"

/-- Cache key shape for todos-list responses documented in part_000
(`cache:todos:{user_id}:{filters}`). -/
def todoCacheKey (userId filters : String) : String :=
  "cache:todos:" ++ userId ++ ":" ++ filters

/-- Model of the todos-service `clearUserCache(userId)` (part_021 lines
110-115). -/
def clearUserCacheTodos (r : Redis) (userId : String) : Redis :=
  Redis.del r (Redis.keysWithStart r (todoCacheRoot userId))

/-- Model of the notes-service read-through cache middleware (part_020 lines
105-131) applied to one GET request, with the backend up. The downstream
handler is abstracted by the response it would produce. On a hit, the cached
body is returned with the untouched default status 200 and the handler is
skipped; on a miss the wrapped `res.json` stores the handler's serialized
body under the key (with no status check) and forwards the response. -/
def cacheMiddleware (r : Redis) (duration : Nat) (userId oUrl : String)
    (handler : HttpResponse) : Redis × HttpResponse :=
  match Redis.get r (noteCacheKey userId oUrl) with
  | some cached => (r, { status := 200, body := cached })
  | none => (Redis.setEx r (noteCacheKey userId oUrl) duration handler.body, handler)

theorem charsStartWith_append (p s : List Char) :
    Redis.charsStartWith p (p ++ s) = true := by
  induction p with
  | nil => rfl
  | cons c p ih => simpa [Redis.charsStartWith] using ih

theorem startsWith_append (p s : String) : Redis.startsWith p (p ++ s) = true := by
  unfold Redis.startsWith
  rw [String.data_append]
  exact charsStartWith_append p.data s.data

theorem del_keysWithStart (r : Redis) (p : String) :
    Redis.del r (Redis.keysWithStart r p) =
      List.filter (fun e => !(Redis.startsWith p e.key)) r := by
  unfold Redis.del
  refine List.filter_congr ?_
  intro e he
  cases hs : Redis.startsWith p e.key with
  | true =>
    have hmem : e.key ∈ Redis.keysWithStart r p := by
      unfold Redis.keysWithStart
      exact List.mem_map_of_mem _ (List.mem_filter.2 ⟨he, hs⟩)
    simp [List.elem_iff, hmem]
  | false =>
    have hnmem : e.key ∉ Redis.keysWithStart r p := by
      intro hmem
      unfold Redis.keysWithStart at hmem
      obtain ⟨e2, he2, hk⟩ := List.mem_map.1 hmem
      have hflt := (List.mem_filter.1 he2).2
      rw [hk] at hflt
      rw [hs] at hflt
      exact Bool.false_ne_true hflt
    simp [List.elem_iff, hnmem]

theorem get_filter_startsWith (r : Redis) (p k : String)
    (h : Redis.startsWith p k = true) :
    Redis.get (List.filter (fun e => !(Redis.startsWith p e.key)) r) k = none := by
  induction r with
  | nil => rfl
  | cons e r ih =>
    by_cases hk : e.key = k
    · have : Redis.startsWith p e.key = true := by rw [hk]; exact h
      simpa [List.filter_cons, this] using ih
    · cases hse : Redis.startsWith p e.key with
      | true => simpa [List.filter_cons, hse] using ih
      | false =>
        have hbe : (e.key == k) = false := beq_eq_false_iff_ne.2 hk
        simpa [List.filter_cons, hse, Redis.get, List.find?, hbe] using ih

theorem get_clearUserCache (r : Redis) (uid url : String) :
    Redis.get (clearUserCache r uid) (noteCacheKey uid url) = none := by
  unfold clearUserCache
  rw [del_keysWithStart]
  apply get_filter_startsWith
  have hkey : noteCacheKey uid url = noteCacheRoot uid ++ url := by
    simp [noteCacheKey, noteCacheRoot, String.append_assoc]
  rw [hkey]
  exact startsWith_append _ _

theorem get_clearUserCacheTodos (r : Redis) (uid filters : String) :
    Redis.get (clearUserCacheTodos r uid) (todoCacheKey uid filters) = none := by
  unfold clearUserCacheTodos
  rw [del_keysWithStart]
  apply get_filter_startsWith
  have hkey : todoCacheKey uid filters = todoCacheRoot uid ++ filters := by
    simp [todoCacheKey, todoCacheRoot, String.append_assoc]
  rw [hkey]
  exact startsWith_append _ _

/-- Row of the `notes` table (Note model of part_020 lines 39-78 / part_006):
title, text, owner id, tags, pinned and archived flags. -/
structure NoteRow where
  id : Nat
  userId : Nat
  title : String
  text : String
  tags : List String
  isPinned : Bool
  isArchived : Bool
deriving DecidableEq

/-- Optional fields of a note-update request body (PUT routes of part_020 and
part_006): absent fields leave the row unchanged. -/
structure NoteUpdates where
  title : Option String
  text : Option String
  tags : Option (List String)
  isPinned : Option Bool
  isArchived : Option Bool
deriving DecidableEq

/-- Application of a note-update body to one row: each present field
overwrites the stored one. -/
def applyNoteUpdates (n : NoteRow) (u : NoteUpdates) : NoteRow :=
  { n with
    title := u.title.getD n.title
    text := u.text.getD n.text
    tags := u.tags.getD n.tags
    isPinned := u.isPinned.getD n.isPinned
    isArchived := u.isArchived.getD n.isArchived }

/-- Model of the notes-service `POST /` route, success path of the database
write (part_020 lines 219-262): `Note.create` persists the row, then
`await clearUserCache(req.user.id)` runs inside the same `try`; if every
Redis call succeeds the route answers 201, while a rejected Redis call is
caught by the route's `catch` block, which answers 500 `Failed to create
note` even though the row is already persisted. -/
def createNoteRoute (rs : RedisHealth) (db : List NoteRow) (uid newId : Nat)
    (title text : String) (tags : List String) (isPinned : Bool) :
    RedisHealth × List NoteRow × HttpResponse :=
  let note : NoteRow :=
    { id := newId, userId := uid, title := title, text := text,
      tags := tags, isPinned := isPinned, isArchived := false }
  let db2 := db ++ [note]
  match rs with
  | .down => (.down, db2, { status := 500, body := "Failed to create note" })
  | .up r => (.up (clearUserCache r (toString uid)), db2,
      { status := 201, body := "Note created successfully" })

/-- Model of the notes-service `PUT /:id` route (part_020 lines 265-315):
`Note.findOne({where: {id, userId}})` gates a 404; on a hit the found row is
updated in place, then the user's cache is cleared before the 200 response
(the `RedisHealth.down` case is the caught rejection as in the create
route). -/
def updateNoteRoute (rs : RedisHealth) (db : List NoteRow) (uid nid : Nat)
    (u : NoteUpdates) : RedisHealth × List NoteRow × HttpResponse :=
  match List.find? (fun n => n.id == nid && n.userId == uid) db with
  | none => (rs, db, { status := 404, body := "Note not found" })
  | some _ =>
    let db2 := List.map
      (fun n => if n.id == nid && n.userId == uid then applyNoteUpdates n u else n) db
    match rs with
    | .down => (.down, db2, { status := 500, body := "Failed to update note" })
    | .up r => (.up (clearUserCache r (toString uid)), db2,
        { status := 200, body := "Note updated successfully" })

/-- Model of the notes-service `DELETE /:id` route (part_020 lines 318-351):
ownership-scoped `findOne` gates a 404; on a hit the row is destroyed and the
user's cache cleared before the 200 response. -/
def deleteNoteRoute (rs : RedisHealth) (db : List NoteRow) (uid nid : Nat) :
    RedisHealth × List NoteRow × HttpResponse :=
  match List.find? (fun n => n.id == nid && n.userId == uid) db with
  | none => (rs, db, { status := 404, body := "Note not found" })
  | some _ =>
    let db2 := List.filter (fun n => !(n.id == nid && n.userId == uid)) db
    match rs with
    | .down => (.down, db2, { status := 500, body := "Failed to delete note" })
    | .up r => (.up (clearUserCache r (toString uid)), db2,
        { status := 200, body := "Note deleted successfully" })

/-- Todo row of part_021's `Todo.create` as far as the cache path needs it. -/
structure TodoRowS where
  id : Nat
  userId : Nat
  text : String
  completed : Bool
deriving DecidableEq

/-- Model of the todos-service `POST /` route, success path of the database
write (part_021 lines 193-237): `Todo.create`, then `await clearUserCache`
inside the same `try`, then the 201 response. -/
def createTodoRoute (rs : RedisHealth) (db : List TodoRowS) (uid newId : Nat)
    (text : String) : RedisHealth × List TodoRowS × HttpResponse :=
  let todo : TodoRowS := { id := newId, userId := uid, text := text, completed := false }
  let db2 := db ++ [todo]
  match rs with
  | .down => (.down, db2, { status := 500, body := "Failed to create todo" })
  | .up r => (.up (clearUserCacheTodos r (toString uid)), db2,
      { status := 201, body := "Todo created successfully" })

/-- C1: after a successful create/update/delete of a note or todo owned by
identity `uid`, the state in which the success response is produced has every
cache entry keyed under that user and resource type deleted (for the notes
service the middleware keys `cache:notes:{uid}:{originalUrl}`, for the todos
service the keys `cache:todos:{uid}:{filters}`), so a read through the cache
middleware issued after the write's response misses and returns the fresh
downstream result rather than any value cached before the write. -/
theorem c1_write_invalidates_user_cache_before_response
    (r : Redis) (db : List NoteRow) (tdb : List TodoRowS)
    (uid newId nid : Nat) (title text : String) (tags : List String)
    (isPinned : Bool) (u : NoteUpdates) (url filters : String)
    (handler : HttpResponse) :
    ((createNoteRoute (.up r) db uid newId title text tags isPinned).2.2.status = 201
      ∧ Redis.get (createNoteRoute (.up r) db uid newId title text tags isPinned).1.redis
          (noteCacheKey (toString uid) url) = none
      ∧ (cacheMiddleware
          (createNoteRoute (.up r) db uid newId title text tags isPinned).1.redis
          300 (toString uid) url handler).2 = handler)
    ∧ ((updateNoteRoute (.up r) db uid nid u).2.2.status = 200 →
        Redis.get (updateNoteRoute (.up r) db uid nid u).1.redis
          (noteCacheKey (toString uid) url) = none)
    ∧ ((deleteNoteRoute (.up r) db uid nid).2.2.status = 200 →
        Redis.get (deleteNoteRoute (.up r) db uid nid).1.redis
          (noteCacheKey (toString uid) url) = none)
    ∧ ((createTodoRoute (.up r) tdb uid newId text).2.2.status = 201
      ∧ Redis.get (createTodoRoute (.up r) tdb uid newId text).1.redis
          (todoCacheKey (toString uid) filters) = none) := by
  refine ⟨⟨rfl, get_clearUserCache r _ url, ?_⟩, ?_, ?_, rfl, get_clearUserCacheTodos r _ filters⟩
  · simp only [createNoteRoute, RedisHealth.redis, cacheMiddleware,
      get_clearUserCache r (toString uid) url]
  · intro _
    cases hf : List.find? (fun n => n.id == nid && n.userId == uid) db with
    | none => simp [updateNoteRoute, hf] at *
    | some n =>
      simp only [updateNoteRoute, hf, RedisHealth.redis]
      exact get_clearUserCache r _ url
  · intro _
    cases hf : List.find? (fun n => n.id == nid && n.userId == uid) db with
    | none => simp [deleteNoteRoute, hf] at *
    | some n =>
      simp only [deleteNoteRoute, hf, RedisHealth.redis]
      exact get_clearUserCache r _ url

/-- Witness for C1 at a concrete state: user 1 with one stale cached list
entry, updating and deleting an owned note (both writes succeed, and both
hypotheses of the theorem are discharged by evaluation). -/
theorem c1_write_invalidates_user_cache_before_response_witness :
    Redis.get (updateNoteRoute (.up [⟨"cache:notes:1:/?page=1", "stale", 300⟩])
        [⟨5, 1, "A", "B", [], false, false⟩] 1 5
        ⟨some "C", none, none, none, none⟩).1.redis
        (noteCacheKey "1" "/?page=1") = none
    ∧ Redis.get (deleteNoteRoute (.up [⟨"cache:notes:1:/?page=1", "stale", 300⟩])
        [⟨5, 1, "A", "B", [], false, false⟩] 1 5).1.redis
        (noteCacheKey "1" "/?page=1") = none := by
  refine ⟨(c1_write_invalidates_user_cache_before_response
      [⟨"cache:notes:1:/?page=1", "stale", 300⟩]
      [⟨5, 1, "A", "B", [], false, false⟩] [] 1 9 5 "T" "X" [] false
      ⟨some "C", none, none, none, none⟩ "/?page=1" "all" ⟨200, "fresh"⟩).2.1 (by decide),
    (c1_write_invalidates_user_cache_before_response
      [⟨"cache:notes:1:/?page=1", "stale", 300⟩]
      [⟨5, 1, "A", "B", [], false, false⟩] [] 1 9 5 "T" "X" [] false
      ⟨some "C", none, none, none, none⟩ "/?page=1" "all" ⟨200, "fresh"⟩).2.2.1 (by decide)⟩

/-- Query parameters of `GET /api/notes` as the gateway destructures them
(part_017 line 323): each field is `some s` when the parameter is present
with raw string value `s`, and `none` when it is absent. -/
structure NotesQuery where
  page : Option String
  limit : Option String
  search : Option String
  archived : Option String
  pinned : Option String
deriving DecidableEq

/-- Cache key built inline by the gateway `GET /api/notes` handler (part_017
line 326): the template string
`notes:${id}:${page}:${limit}:${search || ''}:${archived}:${pinned || ''}`
with the destructuring defaults `page = 1`, `limit = 50`, `archived = false`
(an absent parameter stringifies to its default, `search`/`pinned` fall back
to the empty string). -/
def gatewayNotesCacheKey (userId : String) (q : NotesQuery) : String :=
  "notes:" ++ userId ++ ":" ++ q.page.getD "1" ++ ":" ++ q.limit.getD "50" ++ ":" ++
    q.search.getD "" ++ ":" ++ q.archived.getD "false" ++ ":" ++ q.pinned.getD ""

/-- Helper: two strings with the same character data are equal. -/
theorem stringDataInj {s t : String} (h : s.data = t.data) : s = t := by
  cases s
  cases t
  exact congrArg String.mk (by simpa using h)

/-- Helper: splitting at a reserved separator character is unambiguous when
the left parts avoid it. -/
theorem append_colon_inj :
    ∀ (a1 a2 b1 b2 : List Char), ':' ∉ a1 → ':' ∉ a2 →
      a1 ++ ':' :: b1 = a2 ++ ':' :: b2 → a1 = a2 ∧ b1 = b2 := by
  intro a1
  induction a1 with
  | nil =>
    intro a2 b1 b2 _ h2 heq
    cases a2 with
    | nil => simpa using heq
    | cons c a2 =>
      simp only [List.nil_append, List.cons_append, List.cons.injEq] at heq
      exfalso
      apply h2
      rw [← heq.1]
      exact List.mem_cons_self _ _
  | cons c a1 ih =>
    intro a2 b1 b2 h1 h2 heq
    cases a2 with
    | nil =>
      simp only [List.nil_append, List.cons_append, List.cons.injEq] at heq
      exfalso
      apply h1
      rw [heq.1]
      exact List.mem_cons_self _ _
    | cons d a2 =>
      simp only [List.cons_append, List.cons.injEq] at heq
      obtain ⟨rfl, heq2⟩ := heq
      have h1b : ':' ∉ a1 := fun h => h1 (List.mem_cons_of_mem _ h)
      have h2b : ':' ∉ a2 := fun h => h2 (List.mem_cons_of_mem _ h)
      obtain ⟨ha, hb⟩ := ih a2 b1 b2 h1b h2b heq2
      exact ⟨by rw [ha], hb⟩

/-- C2 counterexample: two `GET /api/notes` requests by the same user whose
query parameters differ — `search=a:false` with `archived` absent versus
`search=a` with `archived=false:false` — derive the same gateway cache key,
refuting the claim that keys never collide across different query parameter
sets. -/
theorem c2_gateway_cache_key_collision :
    gatewayNotesCacheKey "1" ⟨none, none, some "a:false", none, none⟩ =
      gatewayNotesCacheKey "1" ⟨none, none, some "a", some "false:false", none⟩
    ∧ (⟨none, none, some "a:false", none, none⟩ : NotesQuery) ≠
      ⟨none, none, some "a", some "false:false", none⟩ := by
  constructor
  · rfl
  · decide

/-- C2 (amended): cache key derivation is deterministic (each key is a pure
function of route, identity and query fields), and the notes-service
middleware key `cache:notes:${id}:${originalUrl}` is collision-free: when the
identities contain no `:` separator (user ids are integers), two requests
derive the same middleware key only if they agree on both identity and raw
URL, hence on every query parameter. The no-collision guarantee does not
extend to the gateway's flattened inline key, which can collide across
distinct query sets embedding the `:` delimiter. -/
theorem c2_noteCacheKey_injective (u1 u2 r1 r2 : String)
    (h1 : ':' ∉ u1.data) (h2 : ':' ∉ u2.data)
    (heq : noteCacheKey u1 r1 = noteCacheKey u2 r2) : u1 = u2 ∧ r1 = r2 := by
  have hdata : u1.data ++ ':' :: r1.data = u2.data ++ ':' :: r2.data := by
    have h := congrArg String.data heq
    simp only [noteCacheKey, String.data_append, List.append_assoc] at h
    have h2d := List.append_cancel_left h
    simpa using h2d
  obtain ⟨hu, hr⟩ := append_colon_inj u1.data u2.data r1.data r2.data h1 h2 hdata
  exact ⟨stringDataInj hu, stringDataInj hr⟩

/-- Witness for C2's amended theorem at concrete identities and URLs. -/
theorem c2_noteCacheKey_injective_witness :
    ':' ∉ ("1" : String).data ∧ ("1" : String) = "1" ∧ ("/?page=1" : String) = "/?page=1" := by
  refine ⟨by decide, c2_noteCacheKey_injective "1" "1" "/?page=1" "/?page=1"
    (by decide) (by decide) rfl⟩

/-- Model of the cache middleware as the repository documents it (part_000
lines 613-643, and the 2xx-only variant of REDIS-CACHING-DEEP-DIVE.md lines
118-208): the same read-through shape, but the wrapped `res.json` stores the
response only when the status code marks success. -/
def docsCacheMiddleware (r : Redis) (duration : Nat) (key : String)
    (handler : HttpResponse) : Redis × HttpResponse :=
  match Redis.get r key with
  | some cached => (r, { status := 200, body := cached })
  | none =>
    if handler.status < 400 then (Redis.setEx r key duration handler.body, handler)
    else (r, handler)

/-- C3 evaluation at the failing input: on a cache miss where the downstream
handler fails with a 500 error envelope, the notes-service middleware stores
the error body under the cache key with the full TTL, and a repeat GET then
serves that error body as a 200 cache hit; the repository's own documented
middleware stores nothing for the same non-2xx response. This contradicts
the claim that non-2xx responses are never stored. -/
theorem c3_cacheMiddleware_stores_non_2xx :
    (cacheMiddleware [] 300 "1" "/?page=1" ⟨500, "err"⟩).1 =
        [⟨noteCacheKey "1" "/?page=1", "err", 300⟩]
    ∧ Redis.get (cacheMiddleware [] 300 "1" "/?page=1" ⟨500, "err"⟩).1
        (noteCacheKey "1" "/?page=1") = some "err"
    ∧ (cacheMiddleware (cacheMiddleware [] 300 "1" "/?page=1" ⟨500, "err"⟩).1
        300 "1" "/?page=1" ⟨200, "fresh"⟩).2 = ⟨200, "err"⟩
    ∧ (docsCacheMiddleware [] 300 (noteCacheKey "1" "/?page=1") ⟨500, "err"⟩).1 = [] := by
  refine ⟨rfl, by decide, by decide, rfl⟩

/-- Model of the notes-service cache middleware (part_020 lines 105-131)
including the Redis failure mode: the whole body sits inside
`try { ... } catch (error) { next() }`, so when the backend is down the
rejected `get` lands in the catch, the downstream handler runs without any
caching wrapper, and its response is returned unchanged; the fire-and-forget
`setEx(...).catch(console.error)` on the miss path can also never reject the
request. -/
def cacheMiddlewareTry (rs : RedisHealth) (duration : Nat) (userId oUrl : String)
    (handler : HttpResponse) : RedisHealth × HttpResponse :=
  match rs with
  | .down => (.down, handler)
  | .up r =>
    match Redis.get r (noteCacheKey userId oUrl) with
    | some cached => (.up r, { status := 200, body := cached })
    | none => (.up (Redis.setEx r (noteCacheKey userId oUrl) duration handler.body), handler)

/-- Model of the gateway `GET /api/notes` handler (part_017 lines 321-367):
`redisClient.get` and `redisClient.setEx` are awaited inside the route's
single `try`, so when the backend is down the first await throws and the
`catch` answers 500 `Failed to retrieve notes` without invoking the
downstream gRPC call. The Boolean result records whether the downstream
`notesClient.getNotes` call ran. -/
def gatewayGetNotes (rs : RedisHealth) (userId : String) (q : NotesQuery)
    (downstream : HttpResponse) : RedisHealth × HttpResponse × Bool :=
  match rs with
  | .down => (.down, { status := 500, body := "Failed to retrieve notes" }, false)
  | .up r =>
    match Redis.get r (gatewayNotesCacheKey userId q) with
    | some cached => (.up r, { status := 200, body := cached }, false)
    | none => (.up (Redis.setEx r (gatewayNotesCacheKey userId q) 300 downstream.body),
        downstream, true)

/-- C4 counterexample: with the cache backend unreachable, the gateway
`GET /api/notes` request neither proceeds to the downstream handler nor
completes with the handler's response — it fails with 500 even though the
downstream handler would have answered 200, refuting the claim for this read
path. -/
theorem c4_gateway_read_fails_when_cache_down :
    gatewayGetNotes .down "1" ⟨none, none, none, none, none⟩ ⟨200, "notes"⟩ =
      (.down, ⟨500, "Failed to retrieve notes"⟩, false) := rfl

/-- C4 (amended): for reads through the notes-service cache middleware a
cache-layer failure never fails or blocks the request: with the backend down
the request falls through to the downstream handler and completes with
exactly the handler's response, and with the backend up a miss likewise
completes with the handler's response. The guarantee does not extend to the
gateway's inline-cached `GET /api/notes`, where a lookup failure aborts the
request with 500. -/
theorem c4_cacheMiddleware_failure_falls_through
    (duration : Nat) (userId oUrl : String) (handler : HttpResponse) :
    (cacheMiddlewareTry .down duration userId oUrl handler).2 = handler
    ∧ ∀ r : Redis, Redis.get r (noteCacheKey userId oUrl) = none →
        (cacheMiddlewareTry (.up r) duration userId oUrl handler).2 = handler := by
  refine ⟨rfl, fun r h => ?_⟩
  simp [cacheMiddlewareTry, h]

/-- Witness for C4's amended theorem: a request against a down backend and a
request missing an empty up backend both complete with the handler's
response. -/
theorem c4_cacheMiddleware_failure_falls_through_witness :
    (cacheMiddlewareTry .down 300 "1" "/" ⟨200, "ok"⟩).2 = ⟨200, "ok"⟩
    ∧ (cacheMiddlewareTry (.up []) 300 "1" "/" ⟨200, "ok"⟩).2 = ⟨200, "ok"⟩ :=
  ⟨(c4_cacheMiddleware_failure_falls_through 300 "1" "/" ⟨200, "ok"⟩).1,
    (c4_cacheMiddleware_failure_falls_through 300 "1" "/" ⟨200, "ok"⟩).2 [] rfl⟩

/-- C5 evaluation at the failing input: a `POST /` note creation whose
database write succeeds but whose cache invalidation rejects (backend down)
is answered with 500 `Failed to create note`, even though the created row is
already persisted in the returned table state — the invalidation failure is
surfaced to the caller instead of being only logged. -/
theorem c5_invalidation_failure_fails_persisted_write :
    (createNoteRoute .down [] 1 7 "A" "B" [] false).2.1 =
        [⟨7, 1, "A", "B", [], false, false⟩]
    ∧ (createNoteRoute .down [] 1 7 "A" "B" [] false).2.2 =
        ⟨500, "Failed to create note"⟩
    ∧ (createTodoRoute .down [] 1 7 "walk dog").2.1 = [⟨7, 1, "walk dog", false⟩]
    ∧ (createTodoRoute .down [] 1 7 "walk dog").2.2 =
        ⟨500, "Failed to create todo"⟩ := by
  exact ⟨rfl, rfl, rfl, rfl⟩

/-- Redis key under which the auth service stores a user's refresh token
(part_019 lines 180, 244, 284): `refresh_token:${userId}`. -/
def refreshTokenKey (userId : String) : String :=
  "refresh_token:" ++ userId

/-- Model of the refresh-token store step of `POST /login` and
`POST /register` (part_019 lines 180 and 244):
`setEx('refresh_token:' + id, 30*24*60*60, token)`, overwriting any token
previously stored for the same identity. -/
def storeRefreshToken (r : Redis) (userId token : String) : Redis :=
  Redis.setEx r (refreshTokenKey userId) (30 * 24 * 60 * 60) token

/-- Model of the stored-token comparison in `POST /refresh` (part_019 lines
283-298), taken after `jwt.verify` has succeeded and decoded the presented
token's user id (a token failing `jwt.verify` is answered 403 by the route's
catch before this point): the request is answered 403 unless a token is
stored for `decoded.id` and equals the presented string exactly, and 200
otherwise. -/
def refreshRoute (r : Redis) (decodedId presented : String) : Nat :=
  match Redis.get r (refreshTokenKey decodedId) with
  | none => 403
  | some stored => if stored == presented then 200 else 403

theorem get_setEx_self (r : Redis) (k : String) (ttl : Nat) (v : String) :
    Redis.get (Redis.setEx r k ttl v) k = some v := by
  simp [Redis.get, Redis.setEx, List.find?]

theorem ttlOf_setEx_self (r : Redis) (k : String) (ttl : Nat) (v : String) :
    Redis.ttlOf (Redis.setEx r k ttl v) k = some ttl := by
  simp [Redis.ttlOf, Redis.setEx, List.find?]

/-- C6: storing a refresh token for an identity overwrites the one stored
before, and refresh validation succeeds only on exact equality with the
currently stored token: after `t2` supersedes `t1`, presenting `t2` is
answered 200 while presenting the superseded `t1` — or any string other than
`t2` — is answered 403. -/
theorem c6_refresh_token_rotation (r : Redis) (u t1 t2 : String) (h : t1 ≠ t2) :
    Redis.get (storeRefreshToken (storeRefreshToken r u t1) u t2)
        (refreshTokenKey u) = some t2
    ∧ refreshRoute (storeRefreshToken (storeRefreshToken r u t1) u t2) u t2 = 200
    ∧ refreshRoute (storeRefreshToken (storeRefreshToken r u t1) u t2) u t1 = 403
    ∧ ∀ t, t ≠ t2 →
        refreshRoute (storeRefreshToken (storeRefreshToken r u t1) u t2) u t = 403 := by
  have hget : Redis.get (storeRefreshToken (storeRefreshToken r u t1) u t2)
      (refreshTokenKey u) = some t2 := get_setEx_self _ _ _ _
  have hother : ∀ t, t ≠ t2 →
      refreshRoute (storeRefreshToken (storeRefreshToken r u t1) u t2) u t = 403 := by
    intro t ht
    simp [refreshRoute, hget, beq_eq_false_iff_ne.2 (Ne.symm ht)]
  exact ⟨hget, by simp [refreshRoute, hget], hother t1 h, hother⟩

/-- Witness for C6 with two concrete distinct tokens for user 1. -/
theorem c6_refresh_token_rotation_witness :
    Redis.get (storeRefreshToken (storeRefreshToken [] "1" "tokA") "1" "tokB")
        (refreshTokenKey "1") = some "tokB"
    ∧ refreshRoute (storeRefreshToken (storeRefreshToken [] "1" "tokA") "1" "tokB")
        "1" "tokA" = 403 :=
  ⟨(c6_refresh_token_rotation [] "1" "tokA" "tokB" (by decide)).1,
    (c6_refresh_token_rotation [] "1" "tokA" "tokB" (by decide)).2.2.1⟩

/-- Access token as the auth service sees it: the raw JWT string presented by
the client, paired with the claims `jwt.verify` decodes from it (user id and
the `exp` expiry timestamp in seconds). -/
structure AccessToken where
  raw : String
  userId : String
  exp : Nat
deriving DecidableEq

/-- Model of `jwt.verify(token, secret)` at current time `now` in seconds: a
correctly signed token decodes to its claims, while an expired one throws
`TokenExpiredError` (the jsonwebtoken library rejects once `now ≥ exp`). -/
def jwtVerify (t : AccessToken) (now : Nat) : Option AccessToken :=
  if now < t.exp then some t else none

/-- Redis key of a revocation marker (part_019 line 322):
`blacklist:${accessToken}` keyed by the raw token string. -/
def blacklistKey (t : AccessToken) : String :=
  "blacklist:" ++ t.raw

/-- Model of the access-token part of `POST /logout` (part_019 lines
318-323): verify the token, compute
`expirationTime = decoded.exp - Math.floor(Date.now() / 1000)` and store the
marker `revoked` under `blacklist:${token}` with that TTL; a failing verify
(expired token) throws into the route's catch, which answers success with
nothing stored. -/
def blacklistAccessToken (r : Redis) (t : AccessToken) (now : Nat) : Redis :=
  match jwtVerify t now with
  | none => r
  | some d => Redis.setEx r (blacklistKey t) (d.exp - now) "revoked"

/-- Model of the blacklist check opening `POST /verify` (part_019 lines
343-347): a token is rejected as revoked exactly when a marker is stored
under its key. -/
def isBlacklisted (r : Redis) (t : AccessToken) : Bool :=
  (Redis.get r (blacklistKey t)).isSome

/-- C7: immediately after logout blacklists a still-valid access token, the
blacklist check for that token reports it revoked, and the marker's TTL is
exactly `exp - now` — the token's remaining validity computed from its
embedded expiry claim, hence never more than its remaining lifetime — while
blacklisting an already-expired token is a no-op that stores nothing. -/
theorem c7_blacklist_ttl_matches_token_lifetime (r : Redis) (t : AccessToken) (now : Nat) :
    (now < t.exp →
      isBlacklisted (blacklistAccessToken r t now) t = true
      ∧ Redis.ttlOf (blacklistAccessToken r t now) (blacklistKey t) = some (t.exp - now))
    ∧ (t.exp ≤ now → blacklistAccessToken r t now = r) := by
  constructor
  · intro h
    constructor
    · simp [isBlacklisted, blacklistAccessToken, jwtVerify, h, get_setEx_self]
    · simp [blacklistAccessToken, jwtVerify, h, ttlOf_setEx_self]
  · intro h
    simp [blacklistAccessToken, jwtVerify, Nat.not_lt.2 h]

/-- Witness for C7: a token expiring at epoch second 1000, blacklisted at
second 400 (marker present, TTL 600) and at second 1000 (no-op). -/
theorem c7_blacklist_ttl_matches_token_lifetime_witness :
    isBlacklisted (blacklistAccessToken [] ⟨"jwtA", "1", 1000⟩ 400) ⟨"jwtA", "1", 1000⟩ = true
    ∧ Redis.ttlOf (blacklistAccessToken [] ⟨"jwtA", "1", 1000⟩ 400)
        (blacklistKey ⟨"jwtA", "1", 1000⟩) = some 600
    ∧ blacklistAccessToken [] ⟨"jwtA", "1", 1000⟩ 1000 = [] := by
  have h := (c7_blacklist_ttl_matches_token_lifetime [] ⟨"jwtA", "1", 1000⟩ 400).1 (by decide)
  exact ⟨h.1, h.2, (c7_blacklist_ttl_matches_token_lifetime [] ⟨"jwtA", "1", 1000⟩ 1000).2 (by decide)⟩

/-- Model of the monolith `GET /api/notes/:id` (part_006 lines 385-420): the
ownership-scoped `SELECT * FROM notes WHERE id = ? AND user_id = ?` gates a
404; a found row is returned. -/
def getNoteApi (db : List NoteRow) (uid nid : Nat) : Nat × Option NoteRow :=
  match List.find? (fun n => n.id == nid && n.userId == uid) db with
  | none => (404, none)
  | some n => (200, some n)

/-- Model of the monolith `PUT /api/notes/:id` (part_006 lines 480-568): the
ownership-scoped SELECT gates a 404 with no UPDATE executed; otherwise the
dynamic `UPDATE notes SET ... WHERE id = ? AND user_id = ?` applies the
present body fields to the matching rows, and the row re-read by
`SELECT * FROM notes WHERE id = ?` is returned with 200. -/
def putNoteApi (db : List NoteRow) (uid nid : Nat) (u : NoteUpdates) :
    List NoteRow × Nat × Option NoteRow :=
  match List.find? (fun n => n.id == nid && n.userId == uid) db with
  | none => (db, 404, none)
  | some _ =>
    let db2 := List.map
      (fun n => if n.id == nid && n.userId == uid then applyNoteUpdates n u else n) db
    (db2, 200, List.find? (fun n => n.id == nid) db2)

/-- Model of the monolith `DELETE /api/notes/:id` (part_006 lines 573-601):
`DELETE FROM notes WHERE id = ? AND user_id = ?`; `affectedRows === 0` is
answered 404. -/
def deleteNoteApi (db : List NoteRow) (uid nid : Nat) : List NoteRow × Nat :=
  let db2 := List.filter (fun n => !(n.id == nid && n.userId == uid)) db
  if db2.length == db.length then (db, 404) else (db2, 200)

theorem applyNoteUpdates_userId (n : NoteRow) (u : NoteUpdates) :
    (applyNoteUpdates n u).userId = n.userId := rfl

/-- Ownership scoping of the monolith note routes (part_006): when no stored
row has the requested id and the caller as owner, all three routes answer
404 and leave the table unchanged; rows owned by another user survive update
and delete untouched; and any row returned by the read or the update belongs
to the caller (for the update's id-only re-read this uses the primary-key
uniqueness of `id`). -/
theorem notes_owner_scoping_aux (db : List NoteRow) (uid nid : Nat) (u : NoteUpdates)
    (hids : (List.map NoteRow.id db).Nodup) :
    ((∀ row ∈ db, ¬(row.id = nid ∧ row.userId = uid)) →
      getNoteApi db uid nid = (404, none)
      ∧ putNoteApi db uid nid u = (db, 404, none)
      ∧ deleteNoteApi db uid nid = (db, 404))
    ∧ (∀ row ∈ db, row.userId ≠ uid →
        row ∈ (putNoteApi db uid nid u).1 ∧ row ∈ (deleteNoteApi db uid nid).1)
    ∧ (∀ ret, (getNoteApi db uid nid).2 = some ret → ret ∈ db ∧ ret.userId = uid)
    ∧ (∀ ret, (putNoteApi db uid nid u).2.2 = some ret → ret.userId = uid) := by
  refine ⟨?_, ?_, ?_, ?_⟩
  · intro h
    have hnone : List.find? (fun n => n.id == nid && n.userId == uid) db = none := by
      rw [List.find?_eq_none]
      intro n hn
      simp only [Bool.and_eq_true, beq_iff_eq, not_and]
      intro h1 h2
      exact h n hn ⟨h1, h2⟩
    have hfil : List.filter (fun n => !(n.id == nid && n.userId == uid)) db = db := by
      rw [List.filter_eq_self]
      intro n hn
      simp only [Bool.not_eq_eq_eq_not, Bool.not_true, Bool.and_eq_false_iff]
      rcases Decidable.em (n.id = nid) with h1 | h1
      · right
        exact beq_eq_false_iff_ne.2 fun h2 => h n hn ⟨h1, h2⟩
      · left
        exact beq_eq_false_iff_ne.2 h1
    refine ⟨by simp [getNoteApi, hnone], by simp [putNoteApi, hnone], ?_⟩
    simp only [deleteNoteApi]
    rw [hfil]
    simp
  · intro row hrow hown
    have hpred : (row.id == nid && row.userId == uid) = false := by
      rcases Decidable.em (row.id = nid) with h1 | h1
      · simp [beq_eq_false_iff_ne.2 hown]
      · simp [beq_eq_false_iff_ne.2 h1]
    constructor
    · cases hf : List.find? (fun n => n.id == nid && n.userId == uid) db with
      | none => simpa [putNoteApi, hf] using hrow
      | some n =>
        simp only [putNoteApi, hf]
        have hid : (if row.id == nid && row.userId == uid
            then applyNoteUpdates row u else row) = row := by
          rw [if_neg]
          rw [hpred]
          exact Bool.false_ne_true
        exact hid ▸ List.mem_map_of_mem _ hrow
    · simp only [deleteNoteApi]
      by_cases hl :
          (List.filter (fun n => !(n.id == nid && n.userId == uid)) db).length = db.length
      · rw [if_pos (beq_iff_eq.2 hl)]
        exact hrow
      · rw [if_neg fun hh => hl (beq_iff_eq.1 hh)]
        exact List.mem_filter.2 ⟨hrow, by simp [hpred]⟩
  · intro ret hret
    cases hf : List.find? (fun n => n.id == nid && n.userId == uid) db with
    | none => simp [getNoteApi, hf] at hret
    | some n =>
      have hmem := List.mem_of_find?_eq_some hf
      have hpred := List.find?_some hf
      simp only [Bool.and_eq_true, beq_iff_eq] at hpred
      simp only [getNoteApi, hf, Option.some.injEq] at hret
      exact hret ▸ ⟨hmem, hpred.2⟩
  · intro ret hret
    cases hf : List.find? (fun n => n.id == nid && n.userId == uid) db with
    | none => simp [putNoteApi, hf] at hret
    | some n1 =>
      have hmem1 := List.mem_of_find?_eq_some hf
      have hpred1 := List.find?_some hf
      simp only [Bool.and_eq_true, beq_iff_eq] at hpred1
      simp only [putNoteApi, hf] at hret
      have hmem2 := List.mem_of_find?_eq_some hret
      have hpred2 := List.find?_some hret
      simp only [beq_iff_eq] at hpred2
      obtain ⟨n0, hn0, hn0eq⟩ := List.mem_map.1 hmem2
      rcases Decidable.em ((n0.id == nid && n0.userId == uid) = true) with hc | hc
      · have hra : ret = applyNoteUpdates n0 u := by
          rw [← hn0eq]
          exact if_pos hc
        have hc2 := hc
        simp only [Bool.and_eq_true, beq_iff_eq] at hc2
        rw [hra, applyNoteUpdates_userId]
        exact hc2.2
      · have hre : ret = n0 := by
          rw [← hn0eq]
          exact if_neg hc
        have hid0 : n0.id = nid := by rw [← hre]; exact hpred2
        have hsame : n0 = n1 :=
          List.inj_on_of_nodup_map hids hn0 hmem1 (by rw [hid0, hpred1.1])
        exfalso
        apply hc
        rw [hsame]
        simp [hpred1.1, hpred1.2]

/-- Row of the `todos` table (Todo model of part_004 lines 4-85, raw rows of
part_007): text, owner, completion flag, optional completion timestamp,
priority, optional category and due date. -/
structure TodoRow where
  id : Nat
  userId : Nat
  text : String
  completed : Bool
  completedAt : Option Nat
  priority : String
  category : Option String
  dueDate : Option Nat
deriving DecidableEq

/-- Optional fields of a todo-update request body (`PUT /api/todos/:id`,
part_007 lines 205-210): a field is applied only when present. -/
structure TodoUpdates where
  text : Option String
  priority : Option String
  category : Option String
  dueDate : Option Nat
  completed : Option Bool
deriving DecidableEq

/-- Application of the dynamic `UPDATE todos SET ...` of part_007 lines
236-265 to one row: each present body field is written, and a present
`completed` additionally writes `completed_at = NOW()` when true and
`completed_at = NULL` when false. -/
def applyTodoUpdates (now : Nat) (row : TodoRow) (u : TodoUpdates) : TodoRow :=
  let row1 : TodoRow :=
    { row with
      text := u.text.getD row.text
      priority := u.priority.getD row.priority
      category := match u.category with | none => row.category | some c => some c
      dueDate := match u.dueDate with | none => row.dueDate | some d => some d }
  match u.completed with
  | none => row1
  | some c => { row1 with completed := c, completedAt := if c then some now else none }

/-- Model of the monolith `PUT /api/todos/:id` (part_007 lines 205-299): the
ownership-scoped SELECT gates a 404 with no UPDATE; otherwise the update is
applied to the rows matching `WHERE id = ? AND user_id = ?` and the row
re-read by id is returned. -/
def putTodoApi (db : List TodoRow) (uid tid : Nat) (u : TodoUpdates) (now : Nat) :
    List TodoRow × Nat × Option TodoRow :=
  match List.find? (fun t => t.id == tid && t.userId == uid) db with
  | none => (db, 404, none)
  | some _ =>
    let db2 := List.map
      (fun t => if t.id == tid && t.userId == uid then applyTodoUpdates now t u else t) db
    (db2, 200, List.find? (fun t => t.id == tid) db2)

/-- Row effect of the toggle UPDATE (part_007 lines 321-331): write the new
flag and stamp or clear `completed_at` with it. -/
def toggleRow (now : Nat) (c : Bool) (t : TodoRow) : TodoRow :=
  { t with completed := c, completedAt := if c then some now else none }

/-- Model of `PATCH /api/todos/:id/toggle` (part_007 lines 304-357): the
ownership-scoped SELECT gates a 404; otherwise the flag is flipped and
`completed_at` set to `NOW()` exactly when the new flag is true (the UPDATE
itself is keyed by `id` alone), and the row re-read by id is returned. -/
def toggleTodoApi (db : List TodoRow) (uid tid : Nat) (now : Nat) :
    List TodoRow × Nat × Option TodoRow :=
  match List.find? (fun t => t.id == tid && t.userId == uid) db with
  | none => (db, 404, none)
  | some t0 =>
    let db2 := List.map (fun t => if t.id == tid then toggleRow now (!t0.completed) t else t) db
    (db2, 200, List.find? (fun t => t.id == tid) db2)

/-- Model of the Todo `beforeSave` hook (part_004 lines 63-72): when the save
changed `completed` relative to the stored value `oldc`, the hook stamps
`completedAt` with the current date on true and clears it on false; an
unchanged flag leaves the timestamp alone. -/
def todoBeforeSave (now : Nat) (oldc : Bool) (t : TodoRow) : TodoRow :=
  if t.completed != oldc then
    { t with completedAt := if t.completed then some now else none }
  else t

/-- Model of `POST /api/todos` (part_007 lines 152-200): the INSERT stores
the new row with `completed = 0` and no `completed_at`, so it starts pending
with a NULL timestamp. -/
def createTodoApi (db : List TodoRow) (uid newId : Nat) (text priority : String)
    (category : Option String) (dueDate : Option Nat) : List TodoRow × TodoRow :=
  let t : TodoRow :=
    { id := newId, userId := uid, text := text, completed := false,
      completedAt := none, priority := priority, category := category, dueDate := dueDate }
  (db ++ [t], t)

/-- Invariant of the claim: a pending todo carries no completion timestamp. -/
def TodoInv (t : TodoRow) : Prop := t.completed = false → t.completedAt = none

instance TodoInv.instDecidable (t : TodoRow) : Decidable (TodoInv t) := by
  unfold TodoInv
  infer_instance

theorem applyTodoUpdates_completed (now : Nat) (t : TodoRow) (u : TodoUpdates) :
    (applyTodoUpdates now t u).completed = u.completed.getD t.completed := by
  cases hu : u.completed <;> simp [applyTodoUpdates, hu]

theorem applyTodoUpdates_completedAt (now : Nat) (t : TodoRow) (u : TodoUpdates) :
    (applyTodoUpdates now t u).completedAt =
      (match u.completed with
        | none => t.completedAt
        | some c => if c then some now else none) := by
  cases hu : u.completed <;> simp [applyTodoUpdates, hu]

theorem toggleRow_inv (now : Nat) (c : Bool) (t : TodoRow) : TodoInv (toggleRow now c t) := by
  intro h
  simp only [toggleRow] at h ⊢
  simp [h]

theorem applyTodoUpdates_inv (now : Nat) (t : TodoRow) (u : TodoUpdates)
    (ht : TodoInv t) : TodoInv (applyTodoUpdates now t u) := by
  intro h
  rw [applyTodoUpdates_completed] at h
  rw [applyTodoUpdates_completedAt]
  cases hu : u.completed with
  | none =>
    rw [hu] at h
    simp only [Option.getD_none] at h
    simpa using ht h
  | some c =>
    rw [hu] at h
    simp only [Option.getD_some] at h
    simp [h]

/-- C9: through the update and toggle paths (and the Sequelize hook of the
parallel todos service), the completion timestamp follows the completion
flag — an update setting the flag true stamps `completed_at` with the
current time, one setting it false clears it to NULL, an absent flag leaves
it alone, and the toggle stamps or clears according to the new flag — and
the timestamp is never set while the flag is false: create, update and
toggle all preserve `completed = false → completedAt = none` across every
stored row. -/
theorem c9_completion_timestamp_follows_flag (db : List TodoRow)
    (uid tid now newId : Nat) (u : TodoUpdates) (t : TodoRow) (oldc : Bool)
    (text priority : String) (category : Option String) (dueDate : Option Nat) :
    ((applyTodoUpdates now t u).completed = u.completed.getD t.completed
      ∧ (u.completed = some true → (applyTodoUpdates now t u).completedAt = some now)
      ∧ (u.completed = some false → (applyTodoUpdates now t u).completedAt = none)
      ∧ (u.completed = none → (applyTodoUpdates now t u).completedAt = t.completedAt))
    ∧ ((toggleRow now true t).completed = true
      ∧ (toggleRow now true t).completedAt = some now
      ∧ (toggleRow now false t).completed = false
      ∧ (toggleRow now false t).completedAt = none)
    ∧ (t.completed ≠ oldc → todoBeforeSave now oldc t
        = { t with completedAt := if t.completed then some now else none })
    ∧ ((∀ row ∈ db, TodoInv row) →
        (∀ row ∈ (putTodoApi db uid tid u now).1, TodoInv row)
        ∧ (∀ row ∈ (toggleTodoApi db uid tid now).1, TodoInv row)
        ∧ (∀ row ∈ (createTodoApi db uid newId text priority category dueDate).1,
            TodoInv row)) := by
  refine ⟨⟨applyTodoUpdates_completed now t u, ?_, ?_, ?_⟩, ⟨rfl, rfl, rfl, rfl⟩, ?_, ?_⟩
  · intro hu
    rw [applyTodoUpdates_completedAt, hu]
    rfl
  · intro hu
    rw [applyTodoUpdates_completedAt, hu]
    rfl
  · intro hu
    rw [applyTodoUpdates_completedAt, hu]
  · intro hne
    simp [todoBeforeSave, bne_iff_ne.2 hne]
  · intro hinv
    refine ⟨?_, ?_, ?_⟩
    · intro row hrow
      cases hf : List.find? (fun x => x.id == tid && x.userId == uid) db with
      | none =>
        rw [putTodoApi] at hrow
        rw [hf] at hrow
        exact hinv row hrow
      | some t1 =>
        rw [putTodoApi] at hrow
        rw [hf] at hrow
        simp only [List.mem_map] at hrow
        obtain ⟨t0, ht0, heq⟩ := hrow
        rcases Decidable.em ((t0.id == tid && t0.userId == uid) = true) with hc | hc
        · rw [← heq, if_pos hc]
          exact applyTodoUpdates_inv now t0 u (hinv t0 ht0)
        · rw [← heq, if_neg hc]
          exact hinv t0 ht0
    · intro row hrow
      cases hf : List.find? (fun x => x.id == tid && x.userId == uid) db with
      | none =>
        rw [toggleTodoApi] at hrow
        rw [hf] at hrow
        exact hinv row hrow
      | some t0 =>
        rw [toggleTodoApi] at hrow
        rw [hf] at hrow
        simp only [List.mem_map] at hrow
        obtain ⟨t1, ht1, heq⟩ := hrow
        rcases Decidable.em ((t1.id == tid) = true) with hc | hc
        · rw [← heq, if_pos hc]
          exact toggleRow_inv now _ t1
        · rw [← heq, if_neg hc]
          exact hinv t1 ht1
    · intro row hrow
      rw [createTodoApi] at hrow
      simp only [List.mem_append, List.mem_singleton] at hrow
      rcases hrow with hrow | hrow
      · exact hinv row hrow
      · intro _
        rw [hrow]

/-- Witness for C9 at concrete rows: an update marking a pending todo done
stamps the time, the hook does the same on a flag change, and all rows after
a toggle satisfy the pending-has-no-timestamp invariant. -/
theorem c9_completion_timestamp_follows_flag_witness :
    (applyTodoUpdates 500 ⟨1, 1, "x", false, none, "medium", none, none⟩
        ⟨none, none, none, none, some true⟩).completedAt = some 500
    ∧ todoBeforeSave 500 false ⟨1, 1, "x", true, none, "medium", none, none⟩
        = ⟨1, 1, "x", true, some 500, "medium", none, none⟩
    ∧ (∀ row ∈ (toggleTodoApi [⟨1, 1, "x", false, none, "medium", none, none⟩] 1 1 500).1,
        TodoInv row) := by
  have h := c9_completion_timestamp_follows_flag
    [⟨1, 1, "x", false, none, "medium", none, none⟩] 1 1 500 9
    ⟨none, none, none, none, some true⟩ ⟨1, 1, "x", true, none, "medium", none, none⟩
    false "x" "medium" none none
  exact ⟨h.1.2.1 rfl, h.2.2.1 (by decide), (h.2.2.2 (by decide)).2.1⟩

/-- Stored password value. The model keeps the provenance visible: `plain s`
is the raw plaintext `s`, `hashed d` is a bcrypt digest computed over the
string `d`. -/
inductive StoredPw
  | plain (s : String)
  | hashed (s : String)
deriving DecidableEq

/-- String rendering of the password column for serialization (a digest
renders with a bcrypt marker, as real digests carry the `$2a$...` header). -/
def StoredPw.render : StoredPw → String
  | .plain s => s
  | .hashed s => "bcrypt$" ++ s

/-- Bool test that the column holds a digest rather than a plaintext. -/
def StoredPw.isHashed : StoredPw → Bool
  | .plain _ => false
  | .hashed _ => true

/-- Model of `bcrypt.hash(s, salt)`: the digest over input string `s`. -/
def bcryptHash (s : String) : StoredPw := .hashed s

/-- Row of the `users` table (User model of part_004 lines 91-159 and
part_019 lines 40-81). -/
structure UserRow where
  id : Nat
  name : String
  email : String
  username : String
  password : StoredPw
deriving DecidableEq

/-- Model of the User `beforeSave` hook (part_004 lines 142-147, and the
`beforeCreate`/`beforeUpdate` pair of part_019 lines 70-79): when the save
changed the password field, it is replaced by its bcrypt hash before the row
is written. -/
def userBeforeSave (changed : Bool) (u : UserRow) : UserRow :=
  if changed then { u with password := bcryptHash u.password.render } else u

/-- Model of `User.create({... password})` as used by register, demo login and
the auth service (part_006 lines 67-72 and 248-253, part_019 lines 168-173):
the create hook always sees a freshly set plaintext password, so the stored
row carries its digest. -/
def createUser (newId : Nat) (name email username password : String) : UserRow :=
  userBeforeSave true
    { id := newId, name := name, email := email, username := username,
      password := .plain password }

/-- Attribute list `this.get()` returns for a user instance, as (field,
serialized value) pairs. -/
def UserRow.attrPairs (u : UserRow) : List (String × String) :=
  [("id", toString u.id), ("name", u.name), ("email", u.email),
    ("username", u.username), ("password", u.password.render)]

/-- Model of `User.prototype.toJSON` (part_004 lines 166-171) — copy the
attributes and `delete values.password` — and equally of the rest-spread
`const { password: _, ...userResponse } = user.toJSON()` of part_019 lines
183 and 247: the serialized object sent in register/login/demo responses. -/
def UserRow.toJSON (u : UserRow) : List (String × String) :=
  List.filter (fun f => !(f.1 == "password")) (UserRow.attrPairs u)

/-- Model of the attribute-limited fetch used by the profile path:
`User.findByPk(id, { attributes: ['id','name','email','username', ...] })`
(auth middleware of Backend/middleware/auth.js lines 37-39 serving
`GET /api/auth/me`, and `POST /verify` of part_019 lines 350-352). -/
def UserRow.authAttrs (u : UserRow) : List (String × String) :=
  [("id", toString u.id), ("name", u.name), ("email", u.email),
    ("username", u.username)]

/-- C10: the password column of a created user always holds the bcrypt
digest of the submitted plaintext — never the plaintext itself — and every
serialized user object sent in registration, login, demo-login and profile
responses has the password field removed, so neither the plaintext nor the
stored hash appears under any response key. -/
theorem c10_password_absent_from_responses (newId : Nat)
    (name email username password : String) (u : UserRow) :
    (createUser newId name email username password).password
        = StoredPw.hashed password
    ∧ (createUser newId name email username password).password.isHashed = true
    ∧ List.map Prod.fst (UserRow.toJSON u) = ["id", "name", "email", "username"]
    ∧ List.map Prod.fst (UserRow.authAttrs u) = ["id", "name", "email", "username"] := by
  exact ⟨rfl, rfl, rfl, rfl⟩

/-- Model of the monolith `GET /api/todos/:id` (part_007 lines 114-147): the
ownership-scoped `SELECT * FROM todos WHERE id = ? AND user_id = ?` gates a
404; a found row is returned. -/
def getTodoApi (db : List TodoRow) (uid tid : Nat) : Nat × Option TodoRow :=
  match List.find? (fun t => t.id == tid && t.userId == uid) db with
  | none => (404, none)
  | some t => (200, some t)

/-- Model of the monolith `DELETE /api/todos/:id` (part_007 lines 362-390):
`DELETE FROM todos WHERE id = ? AND user_id = ?`; `affectedRows === 0` is
answered 404. -/
def deleteTodoApi (db : List TodoRow) (uid tid : Nat) : List TodoRow × Nat :=
  let db2 := List.filter (fun t => !(t.id == tid && t.userId == uid)) db
  if db2.length == db.length then (db, 404) else (db2, 200)

theorem applyTodoUpdates_userId (now : Nat) (t : TodoRow) (u : TodoUpdates) :
    (applyTodoUpdates now t u).userId = t.userId := by
  cases hu : u.completed <;> simp [applyTodoUpdates, hu]

theorem toggleRow_userId (now : Nat) (c : Bool) (t : TodoRow) :
    (toggleRow now c t).userId = t.userId := rfl

/-- Ownership scoping of the monolith todo routes (part_007): when no stored
row has the requested id and the caller as owner, read, update, toggle and
delete answer 404 and leave the table unchanged; rows owned by another user
survive update, toggle and delete untouched; and any row returned by the
read, the update or the toggle belongs to the caller (the id-only UPDATE and
re-reads are covered by the primary-key uniqueness of `id`). -/
theorem todos_owner_scoping_aux (db : List TodoRow) (uid tid : Nat) (u : TodoUpdates)
    (now : Nat) (hids : (List.map TodoRow.id db).Nodup) :
    ((∀ row ∈ db, ¬(row.id = tid ∧ row.userId = uid)) →
      getTodoApi db uid tid = (404, none)
      ∧ putTodoApi db uid tid u now = (db, 404, none)
      ∧ toggleTodoApi db uid tid now = (db, 404, none)
      ∧ deleteTodoApi db uid tid = (db, 404))
    ∧ (∀ row ∈ db, row.userId ≠ uid →
        row ∈ (putTodoApi db uid tid u now).1
        ∧ row ∈ (toggleTodoApi db uid tid now).1
        ∧ row ∈ (deleteTodoApi db uid tid).1)
    ∧ (∀ ret, (getTodoApi db uid tid).2 = some ret → ret ∈ db ∧ ret.userId = uid)
    ∧ (∀ ret, (putTodoApi db uid tid u now).2.2 = some ret → ret.userId = uid)
    ∧ (∀ ret, (toggleTodoApi db uid tid now).2.2 = some ret → ret.userId = uid) := by
  refine ⟨?_, ?_, ?_, ?_, ?_⟩
  · intro h
    have hnone : List.find? (fun t => t.id == tid && t.userId == uid) db = none := by
      rw [List.find?_eq_none]
      intro t ht
      simp only [Bool.and_eq_true, beq_iff_eq, not_and]
      intro h1 h2
      exact h t ht ⟨h1, h2⟩
    have hfil : List.filter (fun t => !(t.id == tid && t.userId == uid)) db = db := by
      rw [List.filter_eq_self]
      intro t ht
      simp only [Bool.not_eq_eq_eq_not, Bool.not_true, Bool.and_eq_false_iff]
      rcases Decidable.em (t.id = tid) with h1 | h1
      · right
        exact beq_eq_false_iff_ne.2 fun h2 => h t ht ⟨h1, h2⟩
      · left
        exact beq_eq_false_iff_ne.2 h1
    refine ⟨by simp [getTodoApi, hnone], by simp [putTodoApi, hnone],
      by simp [toggleTodoApi, hnone], ?_⟩
    simp only [deleteTodoApi]
    rw [hfil]
    simp
  · intro row hrow hown
    have hpred : (row.id == tid && row.userId == uid) = false := by
      rcases Decidable.em (row.id = tid) with h1 | h1
      · simp [beq_eq_false_iff_ne.2 hown]
      · simp [beq_eq_false_iff_ne.2 h1]
    refine ⟨?_, ?_, ?_⟩
    · cases hf : List.find? (fun t => t.id == tid && t.userId == uid) db with
      | none => simpa [putTodoApi, hf] using hrow
      | some t1 =>
        simp only [putTodoApi, hf]
        have hid : (if row.id == tid && row.userId == uid
            then applyTodoUpdates now row u else row) = row := by
          rw [if_neg]
          rw [hpred]
          exact Bool.false_ne_true
        exact hid ▸ List.mem_map_of_mem _ hrow
    · cases hf : List.find? (fun t => t.id == tid && t.userId == uid) db with
      | none => simpa [toggleTodoApi, hf] using hrow
      | some t0 =>
        have hmem0 := List.mem_of_find?_eq_some hf
        have hpred0 := List.find?_some hf
        simp only [Bool.and_eq_true, beq_iff_eq] at hpred0
        have hrid : (row.id == tid) = false := by
          refine beq_eq_false_iff_ne.2 fun hidq => ?_
          have hsame : row = t0 :=
            List.inj_on_of_nodup_map hids hrow hmem0 (by rw [hidq, hpred0.1])
          apply hown
          rw [hsame]
          exact hpred0.2
        simp only [toggleTodoApi, hf]
        have hid : (if row.id == tid
            then toggleRow now (!t0.completed) row else row) = row := by
          rw [if_neg]
          rw [hrid]
          exact Bool.false_ne_true
        exact hid ▸ List.mem_map_of_mem _ hrow
    · simp only [deleteTodoApi]
      by_cases hl :
          (List.filter (fun t => !(t.id == tid && t.userId == uid)) db).length = db.length
      · rw [if_pos (beq_iff_eq.2 hl)]
        exact hrow
      · rw [if_neg fun hh => hl (beq_iff_eq.1 hh)]
        exact List.mem_filter.2 ⟨hrow, by simp [hpred]⟩
  · intro ret hret
    cases hf : List.find? (fun t => t.id == tid && t.userId == uid) db with
    | none => simp [getTodoApi, hf] at hret
    | some t =>
      have hmem := List.mem_of_find?_eq_some hf
      have hpred := List.find?_some hf
      simp only [Bool.and_eq_true, beq_iff_eq] at hpred
      simp only [getTodoApi, hf, Option.some.injEq] at hret
      exact hret ▸ ⟨hmem, hpred.2⟩
  · intro ret hret
    cases hf : List.find? (fun t => t.id == tid && t.userId == uid) db with
    | none => simp [putTodoApi, hf] at hret
    | some t1 =>
      have hmem1 := List.mem_of_find?_eq_some hf
      have hpred1 := List.find?_some hf
      simp only [Bool.and_eq_true, beq_iff_eq] at hpred1
      simp only [putTodoApi, hf] at hret
      have hmem2 := List.mem_of_find?_eq_some hret
      have hpred2 := List.find?_some hret
      simp only [beq_iff_eq] at hpred2
      obtain ⟨t0, ht0, ht0eq⟩ := List.mem_map.1 hmem2
      rcases Decidable.em ((t0.id == tid && t0.userId == uid) = true) with hc | hc
      · have hra : ret = applyTodoUpdates now t0 u := by
          rw [← ht0eq]
          exact if_pos hc
        have hc2 := hc
        simp only [Bool.and_eq_true, beq_iff_eq] at hc2
        rw [hra, applyTodoUpdates_userId]
        exact hc2.2
      · have hre : ret = t0 := by
          rw [← ht0eq]
          exact if_neg hc
        have hid0 : t0.id = tid := by rw [← hre]; exact hpred2
        have hsame : t0 = t1 :=
          List.inj_on_of_nodup_map hids ht0 hmem1 (by rw [hid0, hpred1.1])
        exfalso
        apply hc
        rw [hsame]
        simp [hpred1.1, hpred1.2]
  · intro ret hret
    cases hf : List.find? (fun t => t.id == tid && t.userId == uid) db with
    | none => simp [toggleTodoApi, hf] at hret
    | some t1 =>
      have hmem1 := List.mem_of_find?_eq_some hf
      have hpred1 := List.find?_some hf
      simp only [Bool.and_eq_true, beq_iff_eq] at hpred1
      simp only [toggleTodoApi, hf] at hret
      have hmem2 := List.mem_of_find?_eq_some hret
      have hpred2 := List.find?_some hret
      simp only [beq_iff_eq] at hpred2
      obtain ⟨t0, ht0, ht0eq⟩ := List.mem_map.1 hmem2
      rcases Decidable.em ((t0.id == tid) = true) with hc | hc
      · have hra : ret = toggleRow now (!t1.completed) t0 := by
          rw [← ht0eq]
          exact if_pos hc
        have hsame : t0 = t1 :=
          List.inj_on_of_nodup_map hids ht0 hmem1 (by rw [beq_iff_eq.1 hc, hpred1.1])
        rw [hra, toggleRow_userId, hsame]
        exact hpred1.2
      · have hre : ret = t0 := by
          rw [← ht0eq]
          exact if_neg hc
        have hid0 : t0.id = tid := by rw [← hre]; exact hpred2
        exact absurd (beq_iff_eq.2 hid0) hc

/-- C8: every note and todo read, update (including the todo toggle) and
delete operation is scoped to the authenticated caller's identity: a request
by user `uid` targeting a resource id that does not exist or is owned by a
different user returns 404 and leaves every stored row unchanged, rows owned
by other users survive every operation untouched, and every row returned
belongs to the caller (primary-key uniqueness of the `id` columns covers the
id-only UPDATE and re-reads). -/
theorem c8_notes_todos_owner_scoping (ndb : List NoteRow) (tdb : List TodoRow)
    (uid nid tid now : Nat) (nu : NoteUpdates) (tu : TodoUpdates)
    (hnids : (List.map NoteRow.id ndb).Nodup)
    (htids : (List.map TodoRow.id tdb).Nodup) :
    (((∀ row ∈ ndb, ¬(row.id = nid ∧ row.userId = uid)) →
        getNoteApi ndb uid nid = (404, none)
        ∧ putNoteApi ndb uid nid nu = (ndb, 404, none)
        ∧ deleteNoteApi ndb uid nid = (ndb, 404))
      ∧ (∀ row ∈ ndb, row.userId ≠ uid →
          row ∈ (putNoteApi ndb uid nid nu).1 ∧ row ∈ (deleteNoteApi ndb uid nid).1)
      ∧ (∀ ret, (getNoteApi ndb uid nid).2 = some ret → ret ∈ ndb ∧ ret.userId = uid)
      ∧ (∀ ret, (putNoteApi ndb uid nid nu).2.2 = some ret → ret.userId = uid))
    ∧ (((∀ row ∈ tdb, ¬(row.id = tid ∧ row.userId = uid)) →
        getTodoApi tdb uid tid = (404, none)
        ∧ putTodoApi tdb uid tid tu now = (tdb, 404, none)
        ∧ toggleTodoApi tdb uid tid now = (tdb, 404, none)
        ∧ deleteTodoApi tdb uid tid = (tdb, 404))
      ∧ (∀ row ∈ tdb, row.userId ≠ uid →
          row ∈ (putTodoApi tdb uid tid tu now).1
          ∧ row ∈ (toggleTodoApi tdb uid tid now).1
          ∧ row ∈ (deleteTodoApi tdb uid tid).1)
      ∧ (∀ ret, (getTodoApi tdb uid tid).2 = some ret → ret ∈ tdb ∧ ret.userId = uid)
      ∧ (∀ ret, (putTodoApi tdb uid tid tu now).2.2 = some ret → ret.userId = uid)
      ∧ (∀ ret, (toggleTodoApi tdb uid tid now).2.2 = some ret → ret.userId = uid)) :=
  ⟨notes_owner_scoping_aux ndb uid nid nu hnids,
    todos_owner_scoping_aux tdb uid tid tu now htids⟩

/-- Witness for C8 on concrete two-user tables: user 1 requesting note 2 and
todo 2 (owned by user 2) gets 404 with the tables unchanged, and user 2's
rows survive user 1's update of note 1 and toggle of todo 1 untouched. -/
theorem c8_notes_todos_owner_scoping_witness :
    getNoteApi [⟨1, 1, "a", "b", [], false, false⟩, ⟨2, 2, "c", "d", [], false, false⟩] 1 2
      = (404, none)
    ∧ (⟨2, 2, "c", "d", [], false, false⟩ : NoteRow) ∈
        (putNoteApi [⟨1, 1, "a", "b", [], false, false⟩, ⟨2, 2, "c", "d", [], false, false⟩]
          1 1 ⟨some "T", none, none, none, none⟩).1
    ∧ getTodoApi [⟨1, 1, "x", false, none, "medium", none, none⟩,
        ⟨2, 2, "y", false, none, "low", none, none⟩] 1 2 = (404, none)
    ∧ (⟨2, 2, "y", false, none, "low", none, none⟩ : TodoRow) ∈
        (toggleTodoApi [⟨1, 1, "x", false, none, "medium", none, none⟩,
          ⟨2, 2, "y", false, none, "low", none, none⟩] 1 1 500).1 :=
  ⟨((c8_notes_todos_owner_scoping
      [⟨1, 1, "a", "b", [], false, false⟩, ⟨2, 2, "c", "d", [], false, false⟩]
      [⟨1, 1, "x", false, none, "medium", none, none⟩,
        ⟨2, 2, "y", false, none, "low", none, none⟩]
      1 2 2 500 ⟨some "T", none, none, none, none⟩ ⟨none, none, none, none, none⟩
      (by decide) (by decide)).1.1 (by decide)).1,
    ((c8_notes_todos_owner_scoping
      [⟨1, 1, "a", "b", [], false, false⟩, ⟨2, 2, "c", "d", [], false, false⟩]
      [⟨1, 1, "x", false, none, "medium", none, none⟩,
        ⟨2, 2, "y", false, none, "low", none, none⟩]
      1 1 1 500 ⟨some "T", none, none, none, none⟩ ⟨none, none, none, none, none⟩
      (by decide) (by decide)).1.2.1
      ⟨2, 2, "c", "d", [], false, false⟩ (by decide) (by decide)).1,
    ((c8_notes_todos_owner_scoping
      [⟨1, 1, "a", "b", [], false, false⟩, ⟨2, 2, "c", "d", [], false, false⟩]
      [⟨1, 1, "x", false, none, "medium", none, none⟩,
        ⟨2, 2, "y", false, none, "low", none, none⟩]
      1 2 2 500 ⟨some "T", none, none, none, none⟩ ⟨none, none, none, none, none⟩
      (by decide) (by decide)).2.1 (by decide)).1,
    ((c8_notes_todos_owner_scoping
      [⟨1, 1, "a", "b", [], false, false⟩, ⟨2, 2, "c", "d", [], false, false⟩]
      [⟨1, 1, "x", false, none, "medium", none, none⟩,
        ⟨2, 2, "y", false, none, "low", none, none⟩]
      1 1 1 500 ⟨some "T", none, none, none, none⟩ ⟨none, none, none, none, none⟩
      (by decide) (by decide)).2.2.1
      ⟨2, 2, "y", false, none, "low", none, none⟩ (by decide) (by decide)).2.1⟩
